import Mathlib

/-!
# PasteBridge — verification of the notepad lifecycle and account-linking core

This development embeds, in Lean 4, the core state machine of the PasteBridge
repository: the Notepad Store (create/get/append/clear with expiry-aware
visibility) and the Ownership Linker (linkOne / linkMany), together with the
client-side history and capture logic of `frontend/app/index.tsx`.

The backend module (`server.py`, which implements the store and linker
operations behind the HTTP routes the client calls) is not part of the
source tree available here; only its client callers are.  Those operations
are therefore modelled from the specification, each such definition carrying
a doc comment starting with `Modelled from the spec:`.  The client-side
definitions (`saveToHistory`, `mergeServerHistory`, `captureAndSend`, …) are
translated directly from `frontend/app/index.tsx`.

Time is modelled as an abstract `Nat` clock measured in days, so the guest
retention window is the constant `90` and the user retention window `365`,
matching the spec's `created_at + 90d` / `created_at + 365d`.
-/

namespace PasteBridge

/-- Account tier, `guest | user | premium`, as in the spec's data model. -/
inductive AccountType where
  | guest
  | user
  | premium
deriving DecidableEq, Repr

/-- A notepad entry `{text, timestamp}`. -/
structure Entry where
  text : String
  timestamp : Nat
deriving DecidableEq, Repr

/-- Modelled from the spec: the `Notepad` document of the missing backend
(`server.py`): id, code, ordered entries, timestamps, tier, expiry and the
nullable owning-account back-reference. -/
structure Notepad where
  id : String
  code : String
  entries : List Entry
  created_at : Nat
  updated_at : Nat
  account_type : AccountType
  expires_at : Option Nat
  user_id : Option String
deriving DecidableEq, Repr

/-- Modelled from the spec: the fields of an `Account` that the Ownership
Linker reads (its identifier and its tier). -/
structure Account where
  id : String
  account_type : AccountType
deriving DecidableEq, Repr

/-- Modelled from the spec: the tier retention policy — guest: 90 days,
user: 365 days, premium: null/unlimited. -/
def retention : AccountType → Option Nat
  | .guest => some 90
  | .user => some 365
  | .premium => none

/-- Modelled from the spec: `expires_at = created_at + retention_period(tier)`,
`none` for unlimited tiers. -/
def expiresFor (t : AccountType) (created : Nat) : Option Nat :=
  (retention t).map (fun d => created + d)

/-- Rank of a tier, inducing the order guest < user < premium. -/
def tierRank : AccountType → Nat
  | .guest => 0
  | .user => 1
  | .premium => 2

/-- The larger of two tiers under guest < user < premium. -/
def maxTier (a b : AccountType) : AccountType :=
  if tierRank a ≤ tierRank b then b else a

/-- The later of two expiry instants, `none` meaning unlimited retention. -/
def maxExpiry : Option Nat → Option Nat → Option Nat
  | none, _ => none
  | some _, none => none
  | some a, some b => some (max a b)

/-- `windowLE a b` holds when retention window `a` ends no later than `b`
(`none` = unlimited retention, later than every instant). -/
def windowLE (a b : Option Nat) : Bool :=
  match a, b with
  | _, none => true
  | none, some _ => false
  | some x, some y => decide (x ≤ y)

/-- Whether an (optional) expiry instant lies strictly in the past:
the spec's `now > expires_at`, with `none` never expired. -/
def expiredAt (now : Nat) : Option Nat → Bool
  | none => false
  | some e => decide (e < now)

/-- A notepad is expired once `now > expires_at`. -/
def isExpired (now : Nat) (n : Notepad) : Bool :=
  expiredAt now n.expires_at

/-- The failure taxonomy of the spec's error-handling design. -/
inductive StoreError where
  | NotFound
  | Expired
  | ValidationError
  | Conflict
deriving DecidableEq, Repr

deriving instance DecidableEq for Except

/-- Whether a string is empty or whitespace-only: the check JavaScript's
`text.trim() === ''` (client) and the backend's validation perform. -/
def isBlank (s : String) : Bool :=
  s.data.all (fun c => c.isWhitespace)

/-- The persisted collection of notepads; the first document whose `code`
matches is the one an operation acts on. -/
def findByCode (db : List Notepad) (code : String) : Option Notepad :=
  db.find? (fun n => n.code == code)

/-- Replace the first document whose `code` matches with the updated one
(the persistence step of a mutating operation). -/
def updateByCode : List Notepad → String → Notepad → List Notepad
  | [], _, _ => []
  | m :: rest, c, n2 => if m.code == c then n2 :: rest else m :: updateByCode rest c n2

/-- Modelled from the spec: `get(code)` of the missing backend — `NotFound`
if no document has the code, `Expired` (distinct from `NotFound`) if it
exists but `now > expires_at`, else the document. -/
def get (db : List Notepad) (now : Nat) (code : String) : Except StoreError Notepad :=
  match findByCode db code with
  | none => .error .NotFound
  | some n => if isExpired now n then .error .Expired else .ok n

/-- The document `append` persists: the entry `{text, timestamp: now}` added
at the end, `updated_at` refreshed. -/
def appendedPad (n : Notepad) (now : Nat) (text : String) : Notepad :=
  { n with entries := n.entries ++ [{ text := text, timestamp := now }],
           updated_at := now }

/-- The document `clear` persists: `entries` truncated to empty,
`updated_at` refreshed. -/
def clearedPad (n : Notepad) (now : Nat) : Notepad :=
  { n with entries := [], updated_at := now }

/-- The document a successful new link persists: `user_id` set, tier raised
to the larger of the notepad's and the account's, and the retention window
the later of the old window and the raised tier's recomputed one. -/
def linkedPad (n : Notepad) (acct : Account) : Notepad :=
  { n with user_id := some acct.id,
           account_type := maxTier n.account_type acct.account_type,
           expires_at := maxExpiry n.expires_at
             (expiresFor (maxTier n.account_type acct.account_type) n.created_at) }

/-- Modelled from the spec: `append(code, text)` of the missing backend —
rejects empty/whitespace-only text as a validation failure before any
persistence attempt (as the client-side guard in `captureAndSend` also
does), otherwise fails per `get`, otherwise appends `{text, timestamp: now}`,
refreshes `updated_at` and persists.  Returns the new collection and the
updated document; an error leaves the collection untouched. -/
def append (db : List Notepad) (now : Nat) (code : String) (text : String) :
    Except StoreError (List Notepad × Notepad) :=
  if isBlank text then .error .ValidationError
  else
    match get db now code with
    | .error e => .error e
    | .ok n => .ok (updateByCode db code (appendedPad n now text), appendedPad n now text)

/-- Modelled from the spec: `clear(code)` of the missing backend — fails per
`get` rules, otherwise truncates `entries` to empty, refreshes `updated_at`
and persists. -/
def clear (db : List Notepad) (now : Nat) (code : String) :
    Except StoreError (List Notepad × Notepad) :=
  match get db now code with
  | .error e => .error e
  | .ok n => .ok (updateByCode db code (clearedPad n now), clearedPad n now)

/-- Modelled from the spec: `linkOne(code, account)` of the missing backend —
fails `NotFound`/`Expired` per `get`; a no-op success when `user_id` already
equals the account; `Conflict` when it is set to a different account;
otherwise sets `user_id`, recomputes `account_type`/`expires_at` upward to
the account's tier (never downward — the new window is the later of the old
one and the new tier's) and persists.  The `Bool` records whether this call
newly linked the document (for `linkMany`'s count). -/
def linkOne (db : List Notepad) (now : Nat) (code : String) (acct : Account) :
    Except StoreError (List Notepad × Notepad × Bool) :=
  match get db now code with
  | .error e => .error e
  | .ok n =>
    match n.user_id with
    | some uid =>
      if uid = acct.id then .ok (db, n, false) else .error .Conflict
    | none => .ok (updateByCode db code (linkedPad n acct), linkedPad n acct, true)

/-- Modelled from the spec: `linkMany(codes, account)` of the missing
backend — applies `linkOne` to each code independently, silently skipping
every failing code, never failing as a whole, and returns the new collection
with the count of newly-linked notepads. -/
def linkMany (db : List Notepad) (now : Nat) (codes : List String) (acct : Account) :
    List Notepad × Nat :=
  match codes with
  | [] => (db, 0)
  | c :: rest =>
    match linkOne db now c acct with
    | .ok (db2, _, newly) =>
      let r := linkMany db2 now rest acct
      (r.1, r.2 + (if newly then 1 else 0))
    | .error _ => linkMany db now rest acct

/-- One client-visible mutating operation against the store/linker, carrying
the clock instant at which it runs. -/
inductive Op where
  | appendOp (now : Nat) (code text : String)
  | clearOp (now : Nat) (code : String)
  | linkOneOp (now : Nat) (code : String) (acct : Account)
  | linkManyOp (now : Nat) (codes : List String) (acct : Account)

/-- Apply one operation to the collection; a failed operation leaves the
collection unchanged (errors are reported to the caller, never partially
persisted). -/
def applyOp (db : List Notepad) : Op → List Notepad
  | .appendOp now code text =>
    match append db now code text with
    | .ok r => r.1
    | .error _ => db
  | .clearOp now code =>
    match clear db now code with
    | .ok r => r.1
    | .error _ => db
  | .linkOneOp now code acct =>
    match linkOne db now code acct with
    | .ok r => r.1
    | .error _ => db
  | .linkManyOp now codes acct => (linkMany db now codes acct).1

/-- Apply a sequence of operations in order. -/
def applyOps (db : List Notepad) : List Op → List Notepad
  | [] => db
  | op :: rest => applyOps (applyOp db op) rest

/-- Per-document evolution invariant: across one step, a document keeps its
identity and code, and a set `user_id` is kept verbatim. -/
def userIdStep (m m2 : Notepad) : Prop :=
  m.id = m2.id ∧ m.code = m2.code ∧ ∀ a, m.user_id = some a → m2.user_id = some a

/-! ## Client-side model, from `frontend/app/index.tsx` -/

/-- A client-side notepad entry (`NotepadEntry` in `index.tsx`): the JSON
the client holds, with string timestamps. -/
structure ClientEntry where
  text : String
  timestamp : String
deriving DecidableEq, Repr

/-- The client's `NotepadSession` interface in `index.tsx`: the notepad JSON
the API returns, as the client stores it in `session`. -/
structure ClientNotepad where
  id : String
  code : String
  entries : List ClientEntry
  created_at : String
  updated_at : String
  account_type : String
  expires_at : Option String
  days_remaining : Option Nat
  is_expiring_soon : Bool
  user_id : Option String
deriving DecidableEq, Repr

/-- The client's `NotepadHistoryItem` interface in `index.tsx`: one entry of
the locally stored notepad history. -/
structure HistoryItem where
  code : String
  created_at : String
  last_used : String
  entry_count : Nat
  days_remaining : Option Nat
  is_expiring_soon : Bool
  user_id : Option String
deriving DecidableEq, Repr

/-- The history item `saveToHistory` builds from a notepad: JavaScript's
`notepad.days_remaining || undefined` maps both absent and `0` to absent,
and `saveToHistory` writes no `user_id` field. -/
def mkHistoryItem (n : ClientNotepad) (nowIso : String) : HistoryItem :=
  { code := n.code,
    created_at := n.created_at,
    last_used := nowIso,
    entry_count := n.entries.length,
    days_remaining := match n.days_remaining with
      | some 0 => none
      | d => d,
    is_expiring_soon := n.is_expiring_soon,
    user_id := none }

/-- Whether some history item already has the given code
(`findIndex(h => h.code === notepad.code) >= 0` in `saveToHistory`). -/
def existsCode (hist : List HistoryItem) (c : String) : Bool :=
  hist.any (fun h => h.code == c)

/-- Replace the first history item whose code matches
(`currentHistory[existingIndex] = historyItem` in `saveToHistory`). -/
def replaceFirstByCode : List HistoryItem → HistoryItem → List HistoryItem
  | [], _ => []
  | h :: rest, item =>
    if h.code == item.code then item :: rest else h :: replaceFirstByCode rest item

/-- `saveToHistory` (`index.tsx` lines 106–132): update the existing item
for that code in place, or prepend a new item, then truncate with
`slice(0, 50)`. -/
def saveToHistory (hist : List HistoryItem) (n : ClientNotepad) (nowIso : String) :
    List HistoryItem :=
  let item := mkHistoryItem n nowIso
  let updated := if existsCode hist item.code then replaceFirstByCode hist item
                 else item :: hist
  updated.take 50

/-- `removeFromHistory` in `index.tsx`: drop every item with the code. -/
def removeFromHistory (hist : List HistoryItem) (c : String) : List HistoryItem :=
  hist.filter (fun h => !(h.code == c))

/-- The notepad JSON the server returns for a code during history
validation and the `/api/auth/notepads` merge (only the fields
`openHistoryModal` reads). -/
structure ServerPad where
  code : String
  created_at : String
  updated_at : String
  entries_len : Nat
  days_remaining : Option Nat
  is_expiring_soon : Bool
  user_id : Option String
deriving DecidableEq, Repr

/-- JavaScript's `data.user_id || undefined`: an absent or empty id becomes
absent. -/
def strOrNone : Option String → Option String
  | some s => if s = "" then none else some s
  | none => none

/-- The validation loop of `openHistoryModal`: keep exactly the local items
the server still answers for, with refreshed metadata. -/
def validateHistory (serverGet : String → Option ServerPad) (localHist : List HistoryItem) :
    List HistoryItem :=
  localHist.filterMap (fun it =>
    (serverGet it.code).map (fun d =>
      { it with entry_count := d.entries_len,
                days_remaining := d.days_remaining,
                is_expiring_soon := d.is_expiring_soon,
                user_id := strOrNone d.user_id }))

/-- The history item `openHistoryModal` builds for a server-side notepad not
present in local history. -/
def serverPadItem (np : ServerPad) : HistoryItem :=
  { code := np.code,
    created_at := np.created_at,
    last_used := np.updated_at,
    entry_count := np.entries_len,
    days_remaining := np.days_remaining,
    is_expiring_soon := np.is_expiring_soon,
    user_id := np.user_id }

/-- `openHistoryModal` (`index.tsx`): validate the local history against the
server, then — when logged in (`server = some list`) — append every
server-side notepad whose code is not among the validated ones, and store
the result.  Note: no truncation to 50 on this path. -/
def mergeServerHistory (serverGet : String → Option ServerPad) (localHist : List HistoryItem)
    (server : Option (List ServerPad)) : List HistoryItem :=
  let validated := validateHistory serverGet localHist
  let known := (localHist.filter (fun it => (serverGet it.code).isSome)).map (fun it => it.code)
  match server with
  | none => validated
  | some sps => validated ++ (sps.filter (fun np => !(known.contains np.code))).map serverPadItem

/-- The client state `captureAndSend` reads and writes: the current session,
the last successfully captured text, and the two message banners. -/
structure ClientState where
  session : Option ClientNotepad
  lastCaptured : String
  errorMsg : String
  successMsg : String
deriving DecidableEq, Repr

/-- Outcome of the append request `captureAndSend` issues. -/
inductive AppendResp where
  | ok (pad : ClientNotepad)
  | gone
  | fail
deriving DecidableEq, Repr

/-- `captureAndSend` (`index.tsx` lines 243–297) as a state transition on the
clipboard text and the server's answer; the `Bool` records whether an append
request was issued.  Empty/whitespace clipboard is rejected first; a
clipboard equal to `lastCaptured` is suppressed with the `Already sent`
error and no request; otherwise the request runs and, on success, the
session is replaced, `lastCaptured` set to the sent text, and `Sent!`
shown. -/
def captureAndSend (st : ClientState) (clip : String) (resp : AppendResp) :
    ClientState × Bool :=
  match st.session with
  | none => (st, false)
  | some _ =>
    let st1 := { st with errorMsg := "", successMsg := "" }
    if isBlank clip then ({ st1 with errorMsg := "Clipboard empty" }, false)
    else if clip = st.lastCaptured then ({ st1 with errorMsg := "Already sent" }, false)
    else
      match resp with
      | .gone => ({ st1 with errorMsg := "Notepad expired" }, true)
      | .fail => ({ st1 with errorMsg := "Failed to send" }, true)
      | .ok pad =>
        ({ st1 with session := some pad, lastCaptured := clip, successMsg := "Sent!" }, true)

/-- The confirmed branch of `clearNotepad` in `index.tsx`: on a reachable
server the session's entries are emptied and `lastCaptured` reset to `""`;
a network failure only sets the error banner. -/
def clearNotepadConfirm (st : ClientState) (netOk : Bool) : ClientState :=
  match st.session with
  | none => st
  | some s =>
    if netOk then
      { st with session := some { s with entries := [] },
                lastCaptured := "",
                successMsg := "Cleared!" }
    else { st with errorMsg := "Failed to clear" }

/-- Outcome of the lookup request `switchToNotepad` issues. -/
inductive GetResp where
  | ok (pad : ClientNotepad)
  | gone
  | notFound
  | fail
deriving DecidableEq, Repr

/-- `switchToNotepad` (`index.tsx` lines 208–241) on the client state: on
success the session is replaced and `lastCaptured` reset to `""`; an expired
(410) answer leaves the state (an alert is shown and the code dropped from
history); other failures set the error banner. -/
def switchToNotepad (st : ClientState) (resp : GetResp) : ClientState :=
  match resp with
  | .ok pad => { st with session := some pad, lastCaptured := "", errorMsg := "" }
  | .gone => { st with errorMsg := "" }
  | .notFound => { st with errorMsg := "Notepad not found" }
  | .fail => { st with errorMsg := "Failed to load notepad" }

/-! ## Concrete sample data -/

/-- A valid guest notepad, as `create` makes one at instant 0:
`expires_at = created_at + 90`. -/
def padGuest : Notepad :=
  { id := "n1", code := "plum42", entries := [], created_at := 0, updated_at := 0,
    account_type := .guest, expires_at := some 90, user_id := none }

/-- A guest-tier notepad already linked to account `uA`. -/
def padLinked : Notepad :=
  { id := "n2", code := "fern7", entries := [], created_at := 0, updated_at := 0,
    account_type := .guest, expires_at := some 90, user_id := some "uA" }

/-- A guest notepad whose window ended at instant 10. -/
def padExpired : Notepad :=
  { id := "n3", code := "oldx", entries := [], created_at := 0, updated_at := 0,
    account_type := .guest, expires_at := some 10, user_id := none }

/-- A user-tier account. -/
def acctU1 : Account :=
  { id := "u1", account_type := .user }

/-- A sample operation sequence against the store. -/
def demoOps : List Op :=
  [ .appendOp 20 "plum42" "hello",
    .linkOneOp 25 "plum42" acctU1,
    .clearOp 30 "fern7",
    .linkManyOp 40 ["plum42", "fern7", "oldx"] acctU1 ]

/-- A sample notepad as the client receives it. -/
def demoClientPad : ClientNotepad :=
  { id := "n1", code := "plum42", entries := [], created_at := "T0", updated_at := "T0",
    account_type := "guest", expires_at := some "T90", days_remaining := some 90,
    is_expiring_soon := false, user_id := none }

/-- A sample client state whose last successful capture was `"hello"`. -/
def demoState : ClientState :=
  { session := some demoClientPad, lastCaptured := "hello",
    errorMsg := "", successMsg := "" }

/-- Fifty history items with pairwise distinct codes — a history as large as
`saveToHistory` ever stores. -/
def demoHistory50 : List HistoryItem :=
  (List.range 50).map (fun i =>
    { code := Nat.repr i, created_at := "T0", last_used := "T0", entry_count := 0,
      days_remaining := none, is_expiring_soon := false, user_id := none })

/-- A server that still answers for every code. -/
def demoServerGet : String → Option ServerPad := fun c =>
  some { code := c, created_at := "T0", updated_at := "T0", entries_len := 0,
         days_remaining := none, is_expiring_soon := false, user_id := none }

/-- A server-side notepad whose code is in no local history. -/
def demoServerOnlyPad : ServerPad :=
  { code := "zz", created_at := "T0", updated_at := "T1", entries_len := 1,
    days_remaining := none, is_expiring_soon := false, user_id := some "u1" }

/-! ## Basic lemmas about the store -/

theorem findByCode_cons (m : Notepad) (rest : List Notepad) (c : String) :
    findByCode (m :: rest) c = if m.code == c then some m else findByCode rest c := by
  cases h : (m.code == c) <;> simp [findByCode, List.find?, h]

theorem findByCode_code {db : List Notepad} {c : String} {n : Notepad}
    (h : findByCode db c = some n) : n.code = c := by
  have := List.find?_some h
  exact eq_of_beq this

theorem findByCode_update_self {db : List Notepad} {c : String} {n n2 : Notepad}
    (h2 : n2.code = c) (h : findByCode db c = some n) :
    findByCode (updateByCode db c n2) c = some n2 := by
  induction db with
  | nil => simp [findByCode] at h
  | cons m rest ih =>
    rw [findByCode_cons] at h
    by_cases hm : m.code = c
    · have hm' : (m.code == c) = true := by simp [hm]
      simp [updateByCode, hm', findByCode_cons, h2]
    · have hm' : (m.code == c) = false := by simp [hm]
      simp only [hm', if_false, Bool.false_eq_true] at h
      simp [updateByCode, hm', findByCode_cons, ih h]

theorem findByCode_update_other {db : List Notepad} {c d : String} {n2 : Notepad}
    (h2 : n2.code = c) (hne : d ≠ c) :
    findByCode (updateByCode db c n2) d = findByCode db d := by
  induction db with
  | nil => simp [updateByCode]
  | cons m rest ih =>
    by_cases hm : m.code = c
    · have hm' : (m.code == c) = true := by simp [hm]
      have hmd : (m.code == d) = false := by
        simp only [beq_eq_false_iff_ne, ne_eq, hm]
        exact fun hcd => hne hcd.symm
      have hnd : (n2.code == d) = false := by
        simp only [beq_eq_false_iff_ne, ne_eq, h2]
        exact fun hcd => hne hcd.symm
      simp [updateByCode, hm', findByCode_cons, hmd, hnd]
    · have hm' : (m.code == c) = false := by simp [hm]
      simp [updateByCode, hm', findByCode_cons, ih]

theorem get_ok_iff {db : List Notepad} {now : Nat} {code : String} {n : Notepad} :
    get db now code = .ok n ↔ findByCode db code = some n ∧ isExpired now n = false := by
  unfold get
  cases hf : findByCode db code with
  | none => simp
  | some m =>
    dsimp only
    by_cases he : isExpired now m = true
    · rw [if_pos he]
      constructor
      · intro h; cases h
      · rintro ⟨h1, h2⟩
        cases h1
        simp [he] at h2
    · rw [if_neg he]
      constructor
      · intro h
        cases h
        exact ⟨rfl, by simpa using he⟩
      · rintro ⟨h1, _⟩
        cases h1
        rfl

theorem append_ok_shape {db : List Notepad} {now : Nat} {code text : String}
    {r : List Notepad × Notepad} (h : append db now code text = .ok r) :
    ∃ n, get db now code = .ok n ∧
      r = (updateByCode db code (appendedPad n now text), appendedPad n now text) := by
  unfold append at h
  cases ht : isBlank text with
  | true => rw [ht] at h; simp at h
  | false =>
    rw [ht] at h
    rw [if_neg (by simp)] at h
    cases hg : get db now code with
    | error e => rw [hg] at h; exact absurd h (by simp)
    | ok n =>
      rw [hg] at h
      refine ⟨n, rfl, ?_⟩
      have := (Except.ok.injEq _ _).mp h
      exact this.symm

theorem clear_ok_shape {db : List Notepad} {now : Nat} {code : String}
    {r : List Notepad × Notepad} (h : clear db now code = .ok r) :
    ∃ n, get db now code = .ok n ∧
      r = (updateByCode db code (clearedPad n now), clearedPad n now) := by
  unfold clear at h
  cases hg : get db now code with
  | error e => rw [hg] at h; exact absurd h (by simp)
  | ok n =>
    rw [hg] at h
    refine ⟨n, rfl, ?_⟩
    have := (Except.ok.injEq _ _).mp h
    exact this.symm

theorem linkOne_ok_shape {db : List Notepad} {now : Nat} {code : String} {acct : Account}
    {r : List Notepad × Notepad × Bool} (h : linkOne db now code acct = .ok r) :
    (∃ n, get db now code = .ok n ∧ n.user_id = some acct.id ∧ r = (db, n, false)) ∨
    (∃ n, get db now code = .ok n ∧ n.user_id = none ∧
      r = (updateByCode db code (linkedPad n acct), linkedPad n acct, true)) := by
  unfold linkOne at h
  cases hg : get db now code with
  | error e => rw [hg] at h; exact absurd h (by simp)
  | ok n =>
    rw [hg] at h
    dsimp only at h
    cases hu : n.user_id with
    | some uid =>
      rw [hu] at h
      dsimp only at h
      by_cases hid : uid = acct.id
      · rw [if_pos hid] at h
        have := (Except.ok.injEq _ _).mp h
        exact .inl ⟨n, rfl, by rw [hu, hid], this.symm⟩
      · rw [if_neg hid] at h
        exact absurd h (by simp)
    | none =>
      rw [hu] at h
      dsimp only at h
      have := (Except.ok.injEq _ _).mp h
      exact .inr ⟨n, rfl, hu, this.symm⟩

/-! ## The user-id preservation invariant -/

theorem userIdStep_refl (m : Notepad) : userIdStep m m :=
  ⟨rfl, rfl, fun _ h => h⟩

theorem userIdStep_trans {a b c : Notepad} (h1 : userIdStep a b) (h2 : userIdStep b c) :
    userIdStep a c :=
  ⟨h1.1.trans h2.1, h1.2.1.trans h2.2.1, fun x hx => h2.2.2 x (h1.2.2 x hx)⟩

theorem forall2_refl_of {R : Notepad → Notepad → Prop} (hrefl : ∀ m, R m m) :
    ∀ l : List Notepad, List.Forall₂ R l l
  | [] => List.Forall₂.nil
  | m :: rest => List.Forall₂.cons (hrefl m) (forall2_refl_of hrefl rest)

theorem forall2_userIdStep_trans : ∀ {l1 l2 l3 : List Notepad},
    List.Forall₂ userIdStep l1 l2 → List.Forall₂ userIdStep l2 l3 →
    List.Forall₂ userIdStep l1 l3 := by
  intro l1 l2 l3 h12 h23
  induction h12 generalizing l3 with
  | nil => cases h23; exact .nil
  | cons hab hrest ih =>
    cases h23 with
    | cons hbc hrest2 => exact .cons (userIdStep_trans hab hbc) (ih hrest2)

theorem updateByCode_forall2 {R : Notepad → Notepad → Prop} (hrefl : ∀ m, R m m)
    {db : List Notepad} {c : String} {n2 : Notepad}
    (h : ∀ n, findByCode db c = some n → R n n2) :
    List.Forall₂ R db (updateByCode db c n2) := by
  induction db with
  | nil => exact .nil
  | cons m rest ih =>
    by_cases hm : m.code = c
    · have hm' : (m.code == c) = true := by simp [hm]
      have : findByCode (m :: rest) c = some m := by rw [findByCode_cons, hm']; rfl
      simp only [updateByCode, hm', if_true]
      exact .cons (h m this) (forall2_refl_of hrefl rest)
    · have hm' : (m.code == c) = false := by simp [hm]
      have hrest : ∀ n, findByCode rest c = some n → R n n2 := by
        intro n hn
        apply h
        rw [findByCode_cons, hm']
        simpa using hn
      simp only [updateByCode, hm', Bool.false_eq_true, if_false]
      exact .cons (hrefl m) (ih hrest)

theorem append_userIdStep {db : List Notepad} {now : Nat} {code text : String}
    {r : List Notepad × Notepad} (h : append db now code text = .ok r) :
    List.Forall₂ userIdStep db r.1 := by
  obtain ⟨n, hg, hr⟩ := append_ok_shape h
  rw [hr]
  exact updateByCode_forall2 userIdStep_refl (fun m hm => by
    have hm' : m = n := by
      have := (get_ok_iff.mp hg).1
      rw [hm] at this
      exact (Option.some.injEq _ _).mp this
    subst hm'
    exact ⟨rfl, rfl, fun a ha => by simp [appendedPad, ha]⟩)

theorem clear_userIdStep {db : List Notepad} {now : Nat} {code : String}
    {r : List Notepad × Notepad} (h : clear db now code = .ok r) :
    List.Forall₂ userIdStep db r.1 := by
  obtain ⟨n, hg, hr⟩ := clear_ok_shape h
  rw [hr]
  exact updateByCode_forall2 userIdStep_refl (fun m hm => by
    have hm' : m = n := by
      have := (get_ok_iff.mp hg).1
      rw [hm] at this
      exact (Option.some.injEq _ _).mp this
    subst hm'
    exact ⟨rfl, rfl, fun a ha => by simp [clearedPad, ha]⟩)

theorem linkOne_userIdStep {db : List Notepad} {now : Nat} {code : String} {acct : Account}
    {r : List Notepad × Notepad × Bool} (h : linkOne db now code acct = .ok r) :
    List.Forall₂ userIdStep db r.1 := by
  rcases linkOne_ok_shape h with ⟨n, hg, hu, hr⟩ | ⟨n, hg, hu, hr⟩
  · rw [hr]
    exact forall2_refl_of userIdStep_refl db
  · rw [hr]
    exact updateByCode_forall2 userIdStep_refl (fun m hm => by
      have hm' : m = n := by
        have := (get_ok_iff.mp hg).1
        rw [hm] at this
        exact (Option.some.injEq _ _).mp this
      subst hm'
      exact ⟨rfl, rfl, fun a ha => by rw [hu] at ha; cases ha⟩)

theorem linkMany_userIdStep (db : List Notepad) (now : Nat) (codes : List String)
    (acct : Account) : List.Forall₂ userIdStep db (linkMany db now codes acct).1 := by
  induction codes generalizing db with
  | nil => exact forall2_refl_of userIdStep_refl db
  | cons c rest ih =>
    unfold linkMany
    cases hl : linkOne db now c acct with
    | error e => exact ih db
    | ok r =>
      dsimp only
      exact forall2_userIdStep_trans (linkOne_userIdStep hl) (ih r.1)

theorem applyOp_userIdStep (db : List Notepad) (op : Op) :
    List.Forall₂ userIdStep db (applyOp db op) := by
  cases op with
  | appendOp now code text =>
    simp only [applyOp]
    cases h : append db now code text with
    | error e => exact forall2_refl_of userIdStep_refl db
    | ok r => exact append_userIdStep h
  | clearOp now code =>
    simp only [applyOp]
    cases h : clear db now code with
    | error e => exact forall2_refl_of userIdStep_refl db
    | ok r => exact clear_userIdStep h
  | linkOneOp now code acct =>
    simp only [applyOp]
    cases h : linkOne db now code acct with
    | error e => exact forall2_refl_of userIdStep_refl db
    | ok r => exact linkOne_userIdStep h
  | linkManyOp now codes acct => exact linkMany_userIdStep db now codes acct

theorem applyOps_userIdStep (db : List Notepad) (ops : List Op) :
    List.Forall₂ userIdStep db (applyOps db ops) := by
  induction ops generalizing db with
  | nil => exact forall2_refl_of userIdStep_refl db
  | cons op rest ih =>
    exact forall2_userIdStep_trans (applyOp_userIdStep db op) (ih (applyOp db op))

/-! ## Expiry-window lemmas -/

theorem expiredAt_maxExpiry {now : Nat} {a b : Option Nat} (h : expiredAt now a = false) :
    expiredAt now (maxExpiry a b) = false := by
  cases a with
  | none => cases b <;> simp [maxExpiry, expiredAt]
  | some x =>
    cases b with
    | none => simp [maxExpiry, expiredAt]
    | some y =>
      simp only [expiredAt, decide_eq_false_iff_not, not_lt] at h
      simp only [maxExpiry, expiredAt, decide_eq_false_iff_not, not_lt]
      exact le_trans h (Nat.le_max_left x y)

theorem windowLE_maxExpiry (a b : Option Nat) : windowLE a (maxExpiry a b) = true := by
  cases a with
  | none => cases b <;> simp [maxExpiry, windowLE]
  | some x =>
    cases b with
    | none => simp [maxExpiry, windowLE]
    | some y => simp [maxExpiry, windowLE, Nat.le_max_left]

theorem isExpired_linkedPad {now : Nat} {n : Notepad} {acct : Account}
    (h : isExpired now n = false) : isExpired now (linkedPad n acct) = false := by
  unfold isExpired at h ⊢
  unfold linkedPad
  exact expiredAt_maxExpiry h

/-! ## Error-propagation helpers -/

theorem get_expired {db : List Notepad} {now : Nat} {code : String} {n : Notepad}
    (hf : findByCode db code = some n) (he : isExpired now n = true) :
    get db now code = .error .Expired := by
  unfold get
  rw [hf]
  simp [he]

theorem get_notFound_iff {db : List Notepad} {now : Nat} {code : String} :
    get db now code = .error .NotFound ↔ findByCode db code = none := by
  unfold get
  cases hf : findByCode db code with
  | none => simp
  | some n =>
    dsimp only
    by_cases he : isExpired now n = true
    · rw [if_pos he]
      simp
    · rw [if_neg he]
      simp

theorem append_err_of_get {db : List Notepad} {now : Nat} {code text : String}
    {e : StoreError} (ht : isBlank text = false) (hg : get db now code = .error e) :
    append db now code text = .error e := by
  unfold append
  rw [ht, hg]
  rfl

theorem clear_err_of_get {db : List Notepad} {now : Nat} {code : String}
    {e : StoreError} (hg : get db now code = .error e) :
    clear db now code = .error e := by
  unfold clear
  rw [hg]

theorem linkOne_err_of_get {db : List Notepad} {now : Nat} {code : String} {acct : Account}
    {e : StoreError} (hg : get db now code = .error e) :
    linkOne db now code acct = .error e := by
  unfold linkOne
  rw [hg]

theorem linkOne_conflict {db : List Notepad} {now : Nat} {code : String} {acct : Account}
    {n : Notepad} {a : String} (hg : get db now code = .ok n)
    (hu : n.user_id = some a) (hne : a ≠ acct.id) :
    linkOne db now code acct = .error .Conflict := by
  unfold linkOne
  rw [hg]
  dsimp only
  rw [hu]
  dsimp only
  rw [if_neg hne]

theorem linkOne_noop {db : List Notepad} {now : Nat} {code : String} {acct : Account}
    {n : Notepad} (hg : get db now code = .ok n) (hu : n.user_id = some acct.id) :
    linkOne db now code acct = .ok (db, n, false) := by
  unfold linkOne
  rw [hg]
  dsimp only
  rw [hu]
  dsimp only
  rw [if_pos rfl]

theorem linkOne_new {db : List Notepad} {now : Nat} {code : String} {acct : Account}
    {n : Notepad} (hg : get db now code = .ok n) (hu : n.user_id = none) :
    linkOne db now code acct =
      .ok (updateByCode db code (linkedPad n acct), linkedPad n acct, true) := by
  unfold linkOne
  rw [hg]
  dsimp only
  rw [hu]

theorem linkMany_skip {db : List Notepad} {now : Nat} {c : String} {rest : List String}
    {acct : Account} {e : StoreError} (h : linkOne db now c acct = .error e) :
    linkMany db now (c :: rest) acct = linkMany db now rest acct := by
  simp only [linkMany]
  rw [h]

theorem linkMany_ok {db db2 : List Notepad} {now : Nat} {c : String} {rest : List String}
    {acct : Account} {n2 : Notepad} {newly : Bool}
    (h : linkOne db now c acct = .ok (db2, n2, newly)) :
    linkMany db now (c :: rest) acct =
      ((linkMany db2 now rest acct).1,
        (linkMany db2 now rest acct).2 + (if newly then 1 else 0)) := by
  simp only [linkMany]
  rw [h]

/-! ## Client-history lemmas -/

theorem replaceFirstByCode_map_code (hist : List HistoryItem) (item : HistoryItem) :
    (replaceFirstByCode hist item).map (fun h => h.code) =
      hist.map (fun h => h.code) := by
  induction hist with
  | nil => rfl
  | cons h rest ih =>
    by_cases hc : h.code = item.code
    · have hb : (h.code == item.code) = true := by simp [hc]
      simp [replaceFirstByCode, hb, hc]
    · have hb : (h.code == item.code) = false := by simp [hc]
      simp [replaceFirstByCode, hb, ih]

theorem existsCode_false_notMem {hist : List HistoryItem} {c : String}
    (h : existsCode hist c = false) : c ∉ hist.map (fun x => x.code) := by
  intro hmem
  rw [List.mem_map] at hmem
  obtain ⟨x, hx, hxc⟩ := hmem
  have : existsCode hist c = true := by
    unfold existsCode
    rw [List.any_eq_true]
    exact ⟨x, hx, by simp [hxc]⟩
  rw [h] at this
  cases this

/-! ## The claims -/

/-- **C1.** For every notepad whose `expires_at` is non-null and in the past,
`get(code)` returns the `Expired` failure — never `NotFound` and never the
stale contents; `NotFound` is returned only when no document with that code
exists; `append` (on valid text) and `clear` fail with the same
`Expired`/`NotFound` distinction as `get`. -/
theorem C1_get_expired_never_notFound (db : List Notepad) (now : Nat)
    (code text : String) :
    (∀ n e, findByCode db code = some n → n.expires_at = some e → e < now →
      get db now code = .error .Expired ∧
      (isBlank text = false → append db now code text = .error .Expired) ∧
      clear db now code = .error .Expired) ∧
    (findByCode db code = none →
      get db now code = .error .NotFound ∧
      (isBlank text = false → append db now code text = .error .NotFound) ∧
      clear db now code = .error .NotFound) ∧
    (get db now code = .error .NotFound → findByCode db code = none) := by
  refine ⟨?_, ?_, ?_⟩
  · intro n e hf he hlt
    have hexp : isExpired now n = true := by
      simp [isExpired, expiredAt, he, hlt]
    have hg := get_expired hf hexp
    exact ⟨hg, fun ht => append_err_of_get ht hg, clear_err_of_get hg⟩
  · intro hf
    have hg : get db now code = .error .NotFound := get_notFound_iff.mpr hf
    exact ⟨hg, fun ht => append_err_of_get ht hg, clear_err_of_get hg⟩
  · exact get_notFound_iff.mp

/-- Closed instance of C1: a pad expired at instant 10, read at instant 50,
and a code no document has. -/
theorem C1_witness :
    get [padExpired] 50 "oldx" = .error .Expired ∧
    append [padExpired] 50 "oldx" "hi" = .error .Expired ∧
    clear [padExpired] 50 "oldx" = .error .Expired ∧
    get [padExpired] 50 "nope" = .error .NotFound := by
  have h1 := (C1_get_expired_never_notFound [padExpired] 50 "oldx" "hi").1 padExpired 10
    (by decide) (by decide) (by decide)
  have h2 := ((C1_get_expired_never_notFound [padExpired] 50 "nope" "hi").2.1 (by decide)).1
  exact ⟨h1.1, h1.2.1 (by decide), h1.2.2, h2⟩

/-- **C2.** `linkOne` on a notepad owned by a different account fails with
`Conflict` and leaves the collection (hence `user_id`) unchanged, and across
every sequence of operations a set `user_id` is never cleared and never
changed to a different account. -/
theorem C2_ownership_never_transferred (db : List Notepad) (now : Nat) (code : String)
    (acct : Account) (ops : List Op) :
    (∀ n a, findByCode db code = some n → isExpired now n = false →
      n.user_id = some a → a ≠ acct.id →
      linkOne db now code acct = .error .Conflict ∧
      applyOp db (.linkOneOp now code acct) = db) ∧
    List.Forall₂ userIdStep db (applyOps db ops) := by
  refine ⟨?_, applyOps_userIdStep db ops⟩
  intro n a hf hexp hu hne
  have hg : get db now code = .ok n := get_ok_iff.mpr ⟨hf, hexp⟩
  have hc := linkOne_conflict hg hu hne
  refine ⟨hc, ?_⟩
  simp only [applyOp]
  rw [hc]

/-- Closed instance of C2: linking someone else's pad as `u1` conflicts and
changes nothing, and a concrete operation sequence preserves ownership. -/
theorem C2_witness :
    linkOne [padLinked] 50 "fern7" acctU1 = .error .Conflict ∧
    applyOp [padLinked] (.linkOneOp 50 "fern7" acctU1) = [padLinked] ∧
    List.Forall₂ userIdStep [padLinked] (applyOps [padLinked] demoOps) := by
  have h := C2_ownership_never_transferred [padLinked] 50 "fern7" acctU1 demoOps
  have ha := h.1 padLinked "uA" (by decide) (by decide) (by decide) (by decide)
  exact ⟨ha.1, ha.2, h.2⟩

/-- **C3.** `linkOne` is idempotent per account: on a non-expired notepad
already owned by the calling account it succeeds as a no-op, so after any
successful `linkOne(code, A)` a second identical call succeeds, changes
nothing, and `user_id` stays `A`. -/
theorem C3_linkOne_idempotent_per_account (db : List Notepad) (now : Nat)
    (code : String) (acct : Account) :
    (∀ n, get db now code = .ok n → n.user_id = some acct.id →
      linkOne db now code acct = .ok (db, n, false)) ∧
    (∀ db1 n1 newly, linkOne db now code acct = .ok (db1, n1, newly) →
      n1.user_id = some acct.id ∧ linkOne db1 now code acct = .ok (db1, n1, false)) := by
  constructor
  · intro n hg hu
    exact linkOne_noop hg hu
  · intro db1 n1 newly h
    rcases linkOne_ok_shape h with ⟨n, hg, hu, hr⟩ | ⟨n, hg, hu, hr⟩
    · injection hr with h1 h23
      injection h23 with h2 h3
      subst h1
      subst h2
      exact ⟨hu, linkOne_noop hg hu⟩
    · injection hr with h1 h23
      injection h23 with h2 h3
      subst h1
      subst h2
      have hcode : n.code = code := findByCode_code (get_ok_iff.mp hg).1
      have hlcode : (linkedPad n acct).code = code := by simp [linkedPad, hcode]
      have hfind2 : findByCode (updateByCode db code (linkedPad n acct)) code =
          some (linkedPad n acct) :=
        findByCode_update_self hlcode (get_ok_iff.mp hg).1
      have hexp2 : isExpired now (linkedPad n acct) = false :=
        isExpired_linkedPad (get_ok_iff.mp hg).2
      have hg2 : get (updateByCode db code (linkedPad n acct)) now code =
          .ok (linkedPad n acct) := get_ok_iff.mpr ⟨hfind2, hexp2⟩
      have huid : (linkedPad n acct).user_id = some acct.id := by simp [linkedPad]
      exact ⟨huid, linkOne_noop hg2 huid⟩

/-- Closed instance of C3: after `u1` claims the guest pad, the repeated call
succeeds as a no-op and `user_id` stays `u1`. -/
theorem C3_witness :
    (linkedPad padGuest acctU1).user_id = some acctU1.id ∧
    linkOne (updateByCode [padGuest] "plum42" (linkedPad padGuest acctU1)) 50 "plum42"
        acctU1 =
      .ok (updateByCode [padGuest] "plum42" (linkedPad padGuest acctU1),
           linkedPad padGuest acctU1, false) :=
  (C3_linkOne_idempotent_per_account [padGuest] 50 "plum42" acctU1).2
    (updateByCode [padGuest] "plum42" (linkedPad padGuest acctU1))
    (linkedPad padGuest acctU1) true (by decide)

/-- **C4.** `linkMany` applies `linkOne` to each code independently, silently
skips every failing code, never fails as a whole, and returns exactly the
count of newly linked notepads: on one claimable guest code, one code linked
to another account and one expired code it links only the guest pad and
returns 1. -/
theorem C4_linkMany_counts_newly_linked (db : List Notepad) (now : Nat) (acct : Account)
    (p1 p2 p3 : Notepad) (c1 c2 c3 b : String) :
    (∀ c rest e, linkOne db now c acct = .error e →
      linkMany db now (c :: rest) acct = linkMany db now rest acct) ∧
    (p1.code = c1 → p2.code = c2 → p3.code = c3 →
     c1 ≠ c2 → c1 ≠ c3 → c2 ≠ c3 →
     p1.user_id = none → isExpired now p1 = false →
     p2.user_id = some b → b ≠ acct.id → isExpired now p2 = false →
     isExpired now p3 = true →
     linkMany [p1, p2, p3] now [c1, c2, c3] acct = ([linkedPad p1 acct, p2, p3], 1) ∧
     (linkedPad p1 acct).user_id = some acct.id) := by
  constructor
  · intro c rest e h
    exact linkMany_skip h
  · intro hc1 hc2 hc3 h12 h13 h23 hu1 hx1 hu2 hb hx2 hx3
    have e1 : (linkedPad p1 acct).code = c1 := by simp [linkedPad, hc1]
    have find1 : findByCode [p1, p2, p3] c1 = some p1 := by
      rw [findByCode_cons]
      simp [hc1]
    have hg1 : get [p1, p2, p3] now c1 = .ok p1 := get_ok_iff.mpr ⟨find1, hx1⟩
    have hupd : updateByCode [p1, p2, p3] c1 (linkedPad p1 acct) =
        [linkedPad p1 acct, p2, p3] := by
      simp [updateByCode, hc1]
    have hl1 : linkOne [p1, p2, p3] now c1 acct =
        .ok ([linkedPad p1 acct, p2, p3], linkedPad p1 acct, true) := by
      rw [linkOne_new hg1 hu1, hupd]
    have bhead2 : ((linkedPad p1 acct).code == c2) = false := by
      simp only [beq_eq_false_iff_ne, ne_eq, e1]
      exact h12
    have bhead3 : ((linkedPad p1 acct).code == c3) = false := by
      simp only [beq_eq_false_iff_ne, ne_eq, e1]
      exact h13
    have bmid3 : (p2.code == c3) = false := by
      simp only [beq_eq_false_iff_ne, ne_eq, hc2]
      exact h23
    have find2 : findByCode [linkedPad p1 acct, p2, p3] c2 = some p2 := by
      rw [findByCode_cons, bhead2]
      simp only [Bool.false_eq_true, if_false]
      rw [findByCode_cons]
      simp [hc2]
    have hg2 : get [linkedPad p1 acct, p2, p3] now c2 = .ok p2 :=
      get_ok_iff.mpr ⟨find2, hx2⟩
    have hl2 : linkOne [linkedPad p1 acct, p2, p3] now c2 acct = .error .Conflict :=
      linkOne_conflict hg2 hu2 hb
    have find3 : findByCode [linkedPad p1 acct, p2, p3] c3 = some p3 := by
      rw [findByCode_cons, bhead3]
      simp only [Bool.false_eq_true, if_false]
      rw [findByCode_cons, bmid3]
      simp only [Bool.false_eq_true, if_false]
      rw [findByCode_cons]
      simp [hc3]
    have hl3 : linkOne [linkedPad p1 acct, p2, p3] now c3 acct = .error .Expired :=
      linkOne_err_of_get (get_expired find3 hx3)
    have step1 : linkMany [p1, p2, p3] now [c1, c2, c3] acct =
        ((linkMany [linkedPad p1 acct, p2, p3] now [c2, c3] acct).1,
          (linkMany [linkedPad p1 acct, p2, p3] now [c2, c3] acct).2 +
            (if true then 1 else 0)) :=
      linkMany_ok hl1
    have step2 : linkMany [linkedPad p1 acct, p2, p3] now [c2, c3] acct =
        linkMany [linkedPad p1 acct, p2, p3] now [c3] acct := linkMany_skip hl2
    have step3 : linkMany [linkedPad p1 acct, p2, p3] now [c3] acct =
        linkMany [linkedPad p1 acct, p2, p3] now [] acct := linkMany_skip hl3
    have stepNil : linkMany [linkedPad p1 acct, p2, p3] now [] acct =
        ([linkedPad p1 acct, p2, p3], 0) := rfl
    refine ⟨?_, by simp [linkedPad]⟩
    rw [step1, step2, step3, stepNil]
    rfl

/-- Closed instance of C4: claiming {guest pad, someone else's pad, expired
pad} as `u1` links only the guest pad and reports exactly one new link; a
failing code at the head of the list is silently skipped. -/
theorem C4_witness :
    linkMany [padGuest, padLinked, padExpired] 50 ["plum42", "fern7", "oldx"] acctU1 =
      ([linkedPad padGuest acctU1, padLinked, padExpired], 1) ∧
    (linkedPad padGuest acctU1).user_id = some acctU1.id ∧
    linkMany [padGuest, padLinked, padExpired] 50 ("oldx" :: ["plum42"]) acctU1 =
      linkMany [padGuest, padLinked, padExpired] 50 ["plum42"] acctU1 := by
  have h := C4_linkMany_counts_newly_linked [padGuest, padLinked, padExpired] 50 acctU1
    padGuest padLinked padExpired "plum42" "fern7" "oldx" "uA"
  have hb := h.2 (by decide) (by decide) (by decide) (by decide) (by decide) (by decide)
    (by decide) (by decide) (by decide) (by decide) (by decide) (by decide)
  exact ⟨hb.1, hb.2, h.1 "oldx" ["plum42"] .Expired (by decide)⟩

/-- **C5.** A successful new link recomputes `account_type`/`expires_at`
upward to the linking account's tier and never downward: the resulting
window is never shorter than the one the notepad had, and a guest pad
(`created_at + 90`) linked by a user-tier account gets
`expires_at = created_at + 365` and `account_type = user`. -/
theorem C5_link_never_shortens_retention (db : List Notepad) (now : Nat)
    (code : String) (acct : Account) :
    ∀ n, get db now code = .ok n → n.user_id = none →
      linkOne db now code acct =
        .ok (updateByCode db code (linkedPad n acct), linkedPad n acct, true) ∧
      windowLE n.expires_at (linkedPad n acct).expires_at = true ∧
      (n.account_type = .guest → n.expires_at = some (n.created_at + 90) →
       acct.account_type = .user →
       (linkedPad n acct).account_type = .user ∧
       (linkedPad n acct).expires_at = some (n.created_at + 365)) := by
  intro n hg hu
  refine ⟨linkOne_new hg hu, ?_, ?_⟩
  · have : (linkedPad n acct).expires_at =
        maxExpiry n.expires_at
          (expiresFor (maxTier n.account_type acct.account_type) n.created_at) := rfl
    rw [this]
    exact windowLE_maxExpiry _ _
  · intro hgt hge hat
    constructor
    · simp [linkedPad, maxTier, tierRank, hgt, hat]
    · have hmax : max (n.created_at + 90) (n.created_at + 365) = n.created_at + 365 := by
        omega
      simp [linkedPad, maxTier, tierRank, hgt, hat, hge, expiresFor, retention,
        maxExpiry, hmax]

/-- Closed instance of C5: `u1` (user tier) claims the guest pad `plum42`;
the window extends from `created_at + 90` to `created_at + 365`. -/
theorem C5_witness :
    linkOne [padGuest] 50 "plum42" acctU1 =
      .ok (updateByCode [padGuest] "plum42" (linkedPad padGuest acctU1),
           linkedPad padGuest acctU1, true) ∧
    windowLE padGuest.expires_at (linkedPad padGuest acctU1).expires_at = true ∧
    (linkedPad padGuest acctU1).account_type = .user ∧
    (linkedPad padGuest acctU1).expires_at = some (padGuest.created_at + 365) := by
  have h := C5_link_never_shortens_retention [padGuest] 50 "plum42" acctU1 padGuest
    (by decide) (by decide)
  have hc := h.2.2 (by decide) (by decide) (by decide)
  exact ⟨h.1, h.2.1, hc.1, hc.2⟩

/-- **C6.** On a non-expired notepad and valid (non-blank) text, `append`
followed immediately by `get` returns a pad whose entries are the prior ones
in their original order with the appended `{text, timestamp}` at the end,
and whose `updated_at` is refreshed. -/
theorem C6_append_then_get (db : List Notepad) (now : Nat) (code text : String) :
    ∀ n, get db now code = .ok n → isBlank text = false →
      append db now code text =
        .ok (updateByCode db code (appendedPad n now text), appendedPad n now text) ∧
      get (updateByCode db code (appendedPad n now text)) now code =
        .ok (appendedPad n now text) ∧
      (appendedPad n now text).entries =
        n.entries ++ [{ text := text, timestamp := now }] ∧
      (appendedPad n now text).updated_at = now := by
  intro n hg ht
  have happ : append db now code text =
      .ok (updateByCode db code (appendedPad n now text), appendedPad n now text) := by
    unfold append
    rw [ht]
    simp only [Bool.false_eq_true, if_false]
    rw [hg]
  have hcode : n.code = code := findByCode_code (get_ok_iff.mp hg).1
  have hacode : (appendedPad n now text).code = code := by simp [appendedPad, hcode]
  have hfind : findByCode (updateByCode db code (appendedPad n now text)) code =
      some (appendedPad n now text) :=
    findByCode_update_self hacode (get_ok_iff.mp hg).1
  have hexp : isExpired now (appendedPad n now text) = false := by
    have := (get_ok_iff.mp hg).2
    simpa [isExpired, appendedPad] using this
  exact ⟨happ, get_ok_iff.mpr ⟨hfind, hexp⟩, rfl, rfl⟩

/-- Closed instance of C6: appending `"hello"` to the guest pad and reading
it back. -/
theorem C6_witness :
    append [padGuest] 50 "plum42" "hello" =
      .ok (updateByCode [padGuest] "plum42" (appendedPad padGuest 50 "hello"),
           appendedPad padGuest 50 "hello") ∧
    get (updateByCode [padGuest] "plum42" (appendedPad padGuest 50 "hello")) 50 "plum42" =
      .ok (appendedPad padGuest 50 "hello") ∧
    (appendedPad padGuest 50 "hello").entries =
      padGuest.entries ++ [{ text := "hello", timestamp := 50 }] ∧
    (appendedPad padGuest 50 "hello").updated_at = 50 :=
  C6_append_then_get [padGuest] 50 "plum42" "hello" padGuest (by decide) (by decide)

/-- **C7.** `clear` empties `entries`, and is idempotent: an immediate second
`clear` also succeeds with empty entries and no error — including when the
notepad was already empty. -/
theorem C7_clear_idempotent (db : List Notepad) (now : Nat) (code : String) :
    ∀ n, get db now code = .ok n →
      clear db now code =
        .ok (updateByCode db code (clearedPad n now), clearedPad n now) ∧
      (clearedPad n now).entries = [] ∧
      (∃ db2 n2, clear (updateByCode db code (clearedPad n now)) now code =
        .ok (db2, n2) ∧ n2.entries = []) := by
  intro n hg
  have hclr : clear db now code =
      .ok (updateByCode db code (clearedPad n now), clearedPad n now) := by
    unfold clear
    rw [hg]
  have hcode : n.code = code := findByCode_code (get_ok_iff.mp hg).1
  have hccode : (clearedPad n now).code = code := by simp [clearedPad, hcode]
  have hfind : findByCode (updateByCode db code (clearedPad n now)) code =
      some (clearedPad n now) :=
    findByCode_update_self hccode (get_ok_iff.mp hg).1
  have hexp : isExpired now (clearedPad n now) = false := by
    have := (get_ok_iff.mp hg).2
    simpa [isExpired, clearedPad] using this
  have hg2 : get (updateByCode db code (clearedPad n now)) now code =
      .ok (clearedPad n now) := get_ok_iff.mpr ⟨hfind, hexp⟩
  have hclr2 : clear (updateByCode db code (clearedPad n now)) now code =
      .ok (updateByCode (updateByCode db code (clearedPad n now)) code
             (clearedPad (clearedPad n now) now),
           clearedPad (clearedPad n now) now) := by
    unfold clear
    rw [hg2]
  exact ⟨hclr, rfl, _, _, hclr2, rfl⟩

/-- Closed instance of C7: clearing the (already empty) guest pad twice
succeeds both times with empty entries. -/
theorem C7_witness :
    clear [padGuest] 50 "plum42" =
      .ok (updateByCode [padGuest] "plum42" (clearedPad padGuest 50),
           clearedPad padGuest 50) ∧
    (clearedPad padGuest 50).entries = [] ∧
    (∃ db2 n2, clear (updateByCode [padGuest] "plum42" (clearedPad padGuest 50)) 50
      "plum42" = .ok (db2, n2) ∧ n2.entries = []) :=
  C7_clear_idempotent [padGuest] 50 "plum42" padGuest (by decide)

/-- **C8.** Empty or whitespace-only text makes `append` fail with
`ValidationError` before any persistence attempt: for every collection the
state after the operation is exactly the state before it. -/
theorem C8_blank_text_rejected (db : List Notepad) (now : Nat) (code text : String) :
    isBlank text = true →
      append db now code text = .error .ValidationError ∧
      applyOp db (.appendOp now code text) = db := by
  intro h
  have happ : append db now code text = .error .ValidationError := by
    unfold append
    rw [h]
    rfl
  refine ⟨happ, ?_⟩
  simp only [applyOp]
  rw [happ]

/-- Closed instance of C8: whitespace-only clipboard text is rejected and the
collection is untouched. -/
theorem C8_witness :
    append [padGuest] 50 "plum42" "   " = .error .ValidationError ∧
    applyOp [padGuest] (.appendOp 50 "plum42" "   ") = [padGuest] :=
  C8_blank_text_rejected [padGuest] 50 "plum42" "   " (by decide)

/-- **C9 (counterexample).** The stored history is not bounded by 50 after
every operation that writes it: with a full 50-item history all still valid
on the server, and one server-side notepad absent from local history, the
logged-in history-modal merge stores 51 items. -/
theorem C9_counterexample :
    (mergeServerHistory demoServerGet demoHistory50 (some [demoServerOnlyPad])).length =
      51 ∧
    ¬ (mergeServerHistory demoServerGet demoHistory50
        (some [demoServerOnlyPad])).length ≤ 50 := by
  decide

/-- **C9 (amended).** Every `saveToHistory` call either updates the existing
item for that code in place or prepends a new item, then truncates to at
most 50 entries: after every `saveToHistory` the stored list has length at
most 50 and uniqueness of codes is preserved; the history-modal server merge
is the one writer not subject to the bound. -/
theorem C9_saveToHistory_bounded (hist : List HistoryItem) (n : ClientNotepad)
    (nowIso : String) :
    (saveToHistory hist n nowIso).length ≤ 50 ∧
    ((hist.map (fun h => h.code)).Nodup →
      ((saveToHistory hist n nowIso).map (fun h => h.code)).Nodup) := by
  constructor
  · simp only [saveToHistory]
    rw [List.length_take]
    exact min_le_left _ _
  · intro hnd
    simp only [saveToHistory]
    rw [List.map_take]
    refine List.Nodup.sublist (List.take_sublist _ _) ?_
    by_cases hex : existsCode hist (mkHistoryItem n nowIso).code = true
    · rw [if_pos hex, replaceFirstByCode_map_code]
      exact hnd
    · rw [if_neg hex]
      rw [List.map_cons, List.nodup_cons]
      refine ⟨?_, hnd⟩
      have hfalse : existsCode hist (mkHistoryItem n nowIso).code = false := by
        simpa using hex
      exact existsCode_false_notMem hfalse

/-- Closed instance of the amended C9: saving a pad into a full 50-item
history keeps the bound and the uniqueness of codes. -/
theorem C9_amended_witness :
    (saveToHistory demoHistory50 demoClientPad "T2").length ≤ 50 ∧
    ((saveToHistory demoHistory50 demoClientPad "T2").map (fun h => h.code)).Nodup := by
  have h := C9_saveToHistory_bounded demoHistory50 demoClientPad "T2"
  exact ⟨h.1, h.2 (by decide)⟩

/-- **C10.** `captureAndSend` suppresses consecutive duplicate captures: when
the clipboard equals the last successfully sent (hence non-blank) text, no
append request is issued, session and `lastCaptured` are unchanged and the
`Already sent` message is shown; a request is issued only when the clipboard
differs from `lastCaptured`; a successful send records the sent non-blank
text as `lastCaptured`; and a confirmed clear or a successful notepad switch
resets `lastCaptured` to the empty string. -/
theorem C10_duplicate_capture_suppressed (st : ClientState) (clip : String)
    (resp : AppendResp) :
    (st.session.isSome = true → clip = st.lastCaptured → isBlank clip = false →
      captureAndSend st clip resp =
        ({ st with errorMsg := "Already sent", successMsg := "" }, false)) ∧
    ((captureAndSend st clip resp).2 = true → clip ≠ st.lastCaptured) ∧
    (∀ pad, resp = .ok pad → (captureAndSend st clip resp).2 = true →
      (captureAndSend st clip resp).1.lastCaptured = clip ∧ isBlank clip = false) ∧
    (st.session.isSome = true → (clearNotepadConfirm st true).lastCaptured = "") ∧
    (∀ pad, (switchToNotepad st (.ok pad)).lastCaptured = "") := by
  refine ⟨?_, ?_, ?_, ?_, ?_⟩
  · intro hs hd hb
    cases hsess : st.session with
    | none => rw [hsess] at hs; cases hs
    | some s =>
      unfold captureAndSend
      rw [hsess]
      dsimp only
      rw [hb]
      simp only [Bool.false_eq_true, if_false]
      rw [if_pos hd]
  · intro h2
    cases hsess : st.session with
    | none =>
      unfold captureAndSend at h2
      rw [hsess] at h2
      cases h2
    | some s =>
      by_cases hd : clip = st.lastCaptured
      · exfalso
        unfold captureAndSend at h2
        rw [hsess] at h2
        dsimp only at h2
        by_cases hb : isBlank clip = true
        · rw [if_pos hb] at h2
          cases h2
        · have hbf : isBlank clip = false := by simpa using hb
          rw [hbf] at h2
          simp only [Bool.false_eq_true, if_false] at h2
          rw [if_pos hd] at h2
          cases h2
      · exact hd
  · intro pad hresp h2
    subst hresp
    cases hsess : st.session with
    | none =>
      unfold captureAndSend at h2
      rw [hsess] at h2
      cases h2
    | some s =>
      by_cases hb : isBlank clip = true
      · exfalso
        unfold captureAndSend at h2
        rw [hsess] at h2
        dsimp only at h2
        rw [if_pos hb] at h2
        cases h2
      · have hbf : isBlank clip = false := by simpa using hb
        by_cases hd : clip = st.lastCaptured
        · exfalso
          unfold captureAndSend at h2
          rw [hsess] at h2
          dsimp only at h2
          rw [hbf] at h2
          simp only [Bool.false_eq_true, if_false] at h2
          rw [if_pos hd] at h2
          cases h2
        · have hcap : captureAndSend st clip (.ok pad) =
              ({ st with session := some pad, lastCaptured := clip,
                         errorMsg := "", successMsg := "Sent!" }, true) := by
            unfold captureAndSend
            rw [hsess]
            dsimp only
            rw [hbf]
            simp only [Bool.false_eq_true, if_false]
            rw [if_neg hd]
          rw [hcap]
          exact ⟨rfl, hbf⟩
  · intro hs
    cases hsess : st.session with
    | none => rw [hsess] at hs; cases hs
    | some s =>
      unfold clearNotepadConfirm
      rw [hsess]
      rfl
  · intro pad
    rfl

/-- Closed instance of C10: with `"hello"` already sent, capturing `"hello"`
again issues no request and shows `Already sent`; a confirmed clear resets
the duplicate guard. -/
theorem C10_witness :
    captureAndSend demoState "hello" .fail =
      ({ demoState with errorMsg := "Already sent", successMsg := "" }, false) ∧
    (clearNotepadConfirm demoState true).lastCaptured = "" := by
  have h := C10_duplicate_capture_suppressed demoState "hello" .fail
  exact ⟨h.1 (by decide) (by decide) (by decide), h.2.2.2.1 (by decide)⟩

end PasteBridge
